import Mathlib

/-!
Verification of the Mouseless GNOME Shell extension (shallow embedding).

Each definition below is translated from the extension's JavaScript source:

* `navNewIndex`, `navigate_focus`   — `src/extension/iconGrid.js`, `IconGrid.navigate_focus` (lines 1099-1149)
* `appViewMovement`                 — `src/extension/appGrid.js`, `AppView.movement` (lines 461-468)
* `addedApps`, `removedApps`, `redisplayOrdered` — `src/extension/appGrid.js`, `AppView._redisplay` (lines 514-541)
* `loadApps`                        — `src/extension/appGrid.js`, `AppView._loadApps` (lines 546-614)
* `MouselessScreen'` operations     — `src/extension/screen.js` (`_grabFocus`, `showModal`, `hideModal`, `_updateRunningCount`)
* `runDeferredWork`, `redrawStep`   — the `Meta.later_add(BEFORE_REDRAW, ...)` callbacks scheduled by
                                      `MouselessScreen._grabFocus` (screen.js 206-216) and
                                      `MenuList._moveFocusToItems` (menuList source, lines 226-240)
* `IconGridState` operations        — `src/extension/iconGrid.js` (`_computeLayout`, `_updateSpacingForSize`,
                                      `adaptToSize`, and their helpers, lines 830-1075)
* `addItem`                         — `src/extension/iconGrid.js`, `IconGrid.addItem` (lines 936-943)

JavaScript numbers are modelled as `Int` (all quantities involved are integers in the
source: indices, lengths, CSS pixel lengths).  `Math.floor(a / b)` is modelled by
`Int.fdiv` (floor division) and the JavaScript `%` operator by `Int.tmod` (truncated
remainder, which matches the sign behaviour of JS `%`).  JavaScript truthiness of a
number (`x ? a : b`) is modelled as a test against `0`.
-/

/-- JS `Math.floor(a / b)`: floor division (exact for `b > 0`; JS produces an
infinity for `b = 0`, a case none of the theorems below touch). -/
def jsFloorDiv (a b : Int) : Int := Int.fdiv a b

/-- JS `Math.ceil(a / b)` for `b > 0`: `⌈a / b⌉ = -⌊-a / b⌋`. -/
def jsCeilDiv (a b : Int) : Int := -(Int.fdiv (-a) b)

/-- The four arrow directions of `St.DirectionType` that `IconGrid.navigate_focus`
handles (`UP`, `DOWN`, `LEFT`, `RIGHT`); the remaining members of the enum fall
into the method's final `else` branch, modelled as `none` input elsewhere. -/
inductive Direction
  | up
  | down
  | left
  | right
deriving DecidableEq

/-- The `newIndex` computation of `IconGrid.navigate_focus`
(iconGrid.js 1114-1142) for a current index `idx`, column count `nColumns`,
child count `n` and wrap flag.  Each branch mirrors one `if` of the source:
`LEFT` is `idx - 1` wrapping to `n - 1` (else clamped to `0`), `RIGHT` is
`idx + 1` wrapping to `0` (else clamped to `n - 1`), `UP` goes one row up and
otherwise wraps to the same column of the last row, stepping back one row if
that slot is past the end (ragged last row), `DOWN` goes one row down and
otherwise wraps to the same column of the top row. -/
def navNewIndex (idx : Int) (dir : Direction) (nColumns n : Int) (wrap : Bool) : Int :=
  match dir with
  | .left =>
    let newIndex := idx - 1
    if newIndex < 0 then (if wrap then n - 1 else 0) else newIndex
  | .right =>
    let newIndex := idx + 1
    if n ≤ newIndex then (if wrap then 0 else n - 1) else newIndex
  | .up =>
    let newIndex := idx - nColumns
    if newIndex < 0 then
      let c := Int.tmod idx nColumns
      let lastRow := jsFloorDiv (n - 1) nColumns
      let w := c + lastRow * nColumns
      if n ≤ w then w - nColumns else w
    else newIndex
  | .down =>
    let newIndex := idx + nColumns
    if n ≤ newIndex then Int.tmod idx nColumns else newIndex

/-- `IconGrid.navigate_focus` (iconGrid.js 1099-1149).  `n` is the number of
visible children, `idx` the index of `current` among them (`indexOf` returns a
negative number when `current` is not found, in which case the first child is
focused), `layoutCols` the first component of `_computeLayout` (the source
applies `|| 1`, modelled as the test against `0`).  The result is `some j`
when `children[j].grab_key_focus()` runs and `none` when the method returns
`false` (no children, or `children[newIndex]` is `undefined`). -/
def navigate_focus (n idx : Int) (dir : Direction) (layoutCols : Int) (wrap : Bool) : Option Int :=
  if n ≤ 0 then none
  else if idx < 0 then some 0
  else
    let nColumns := if layoutCols = 0 then 1 else layoutCols
    let newIndex := navNewIndex idx dir nColumns n wrap
    if 0 ≤ newIndex ∧ newIndex < n then some newIndex else none

/-- `Clutter.EVENT_STOP` / `Clutter.EVENT_PROPAGATE`. -/
inductive EventFlag
  | stop
  | propagate
deriving DecidableEq

/-- `AppView.movement` (appGrid.js 461-468).  When the event carries a
direction and a last-focused item exists, it calls
`navigate_focus(lastFocused, direction, false)` — wrap is disabled — and
returns `Clutter.EVENT_STOP`; otherwise it returns `Clutter.EVENT_PROPAGATE`.
The pair holds the focus outcome of the `navigate_focus` call (if any) and the
returned event flag. -/
def appViewMovement (direction : Option Direction) (lastFocused : Option Int)
    (n layoutCols : Int) : Option Int × EventFlag :=
  match direction, lastFocused with
  | some dir, some idx => (navigate_focus n idx dir layoutCols false, .stop)
  | _, _ => (none, .propagate)

/-- `addedApps` of `AppView._redisplay` (appGrid.js 521): items of the new list
absent from the old id list, kept in new-list order (`Array.filter` with
`!oldAppIds.includes`). -/
def addedApps (oldAppIds newApps : List Nat) : List Nat :=
  newApps.filter fun icon => !(oldAppIds.contains icon)

/-- `removedApps` of `AppView._redisplay` (appGrid.js 522): items of the old
list absent from the new id list, in old-list order. -/
def removedApps (oldApps newAppIds : List Nat) : List Nat :=
  oldApps.filter fun icon => !(newAppIds.contains icon)

/-- JS `array.splice(i, 0, x)`: insert `x` at position `i`, clamped to the end
of the array when `i` exceeds its length. -/
def spliceInsert (l : List Nat) (i : Nat) (x : Nat) : List Nat :=
  if l.length < i then l ++ [x] else l.insertIdx i x

/-- The net effect of `AppView._redisplay` (appGrid.js 514-541) on
`_orderedItems`, with icons identified by their ids: every removed icon is
deleted at its current position (`indexOf` + `splice(i, 1)`, i.e. `List.erase`),
then every added icon is spliced in at its index in the new list
(`newApps.indexOf(icon)`), in new-list order. -/
def redisplayOrdered (oldOrdered newApps : List Nat) : List Nat :=
  let afterRemovals := (removedApps oldOrdered newApps).foldl (fun acc icon => acc.erase icon) oldOrdered
  (addedApps oldOrdered newApps).foldl
    (fun acc icon => spliceInsert acc (newApps.indexOf icon) icon) afterRemovals

/-- An app icon as `AppView._loadApps` sees it: a stable (lower-cased) id and a
name.  Names are abstracted to `Nat` keys so that `a.name.localeCompare(b.name)`
becomes the linear order on `Nat`.  The source consults `icon.getId()` and
`getRunningAppId(icon.app)`, which agree whenever the running-window id
resolves; the model uses the single `id` field for both. -/
structure AppIcon where
  id : Nat
  name : Nat
deriving DecidableEq

/-- `AppView._loadApps` (appGrid.js 546-614) given the backend's ordered app
list (`AppBackend.getAllApps`), the running app ids and the favorite ids:
favorites are looked up in favorite-list order (`map` + `find` + drop the
misses, i.e. `filterMap`), running non-favorite icons and the remaining icons
are filtered from the backend list, the remaining icons are sorted by name
(stable `Array.sort` = `List.mergeSort`), and the three groups are
concatenated. -/
def loadApps (backendApps : List AppIcon) (runningAppIds favoriteAppIds : List Nat) :
    List AppIcon :=
  let icons := backendApps
  let favIcons := favoriteAppIds.filterMap fun i => icons.find? fun icon => icon.id == i
  let runningIcons := icons.filter fun icon =>
    runningAppIds.contains icon.id && !(favoriteAppIds.contains icon.id)
  let otherIcons := icons.filter fun icon =>
    !(favoriteAppIds.contains icon.id) && !(runningAppIds.contains icon.id)
  let otherSorted := otherIcons.mergeSort fun a b => decide (a.name ≤ b.name)
  favIcons ++ runningIcons ++ otherSorted

/-- The two views `MouselessScreen.viewManager` switches between. -/
inductive ViewName
  | apps
  | list
deriving DecidableEq

/-- The observable state of `MouselessScreen` (screen.js) relevant to
show/hide behaviour: `isShown` is the `_isShown` flag (set by `showModal`,
cleared only by a user-initiated `hideModal`), `actorVisible` and
`lightboxVisible` the visibility of the two top-chrome widgets,
`nAppsRunning` the `_nAppsRunning` counter, `currentView` the view shown by
the `ViewManager`, and `pendingFocusRetries` counts the
`Meta.later_add(BEFORE_REDRAW, ...)` focus-retry callbacks scheduled by
`_grabFocus` that have not yet run (the class keeps no handle to them). -/
structure MouselessScreen' where
  isShown : Bool
  actorVisible : Bool
  lightboxVisible : Bool
  nAppsRunning : Nat
  currentView : ViewName
  pendingFocusRetries : Nat
deriving DecidableEq

/-- `MouselessScreen._grabFocus` (screen.js 206-216): try
`actor.navigate_focus` once; if it did not set focus, schedule a single
before-next-redraw retry via `Meta.later_add`.  `focusSet` is the result of
the immediate attempt. -/
def grabFocus (focusSet : Bool) (s : MouselessScreen') : MouselessScreen' :=
  if focusSet then s
  else { s with pendingFocusRetries := s.pendingFocusRetries + 1 }

/-- `MouselessScreen.showModal` (screen.js 222-262), animation and the modal
grab abstracted away: sets `_isShown = true`, shows the lightbox and the
actor. -/
def showModal (s : MouselessScreen') : MouselessScreen' :=
  { s with isShown := true, actorVisible := true, lightboxVisible := true }

/-- `MouselessScreen.hideModal(userHidden)` (screen.js 268-288): clears
`_isShown` only when `userHidden` is set, removes the modal grab, hides the
lightbox and the actor, and resets the view to the home (apps) screen.  The
method does not touch any scheduled `Meta.later_add` callback — there is no
`Meta.later_remove` anywhere in the class — so `pendingFocusRetries` is
unchanged. -/
def hideModal (userHidden : Bool) (s : MouselessScreen') : MouselessScreen' :=
  { s with isShown := if userHidden then false else s.isShown,
           actorVisible := false,
           lightboxVisible := false,
           currentView := ViewName.apps }

/-- `MouselessScreen._updateRunningCount` (screen.js 185-198): ignore
`STARTING` apps, record the running count, then `hideModal(false)` when the
count is nonzero, else `showModal(true)` when `_isShown` is still set. -/
def updateRunningCount (appStarting : Bool) (runningCount : Nat) (s : MouselessScreen') :
    MouselessScreen' :=
  if appStarting then s
  else
    let s1 := { s with nAppsRunning := runningCount }
    if runningCount ≠ 0 then hideModal false s1
    else if s1.isShown then showModal s1 else s1

/-- The two kinds of before-next-redraw callbacks the extension schedules for
deferred focus work: the one-shot retry of `MouselessScreen._grabFocus`
(screen.js 211-215) and the self-rescheduling retry of
`MenuList._moveFocusToItems` (menuList source 226-240). -/
inductive DeferredWork
  | grabFocusRetry
  | moveFocusRetry
deriving DecidableEq

/-- Running one scheduled callback in a world where `focusSucceeds` tells
whether `navigate_focus` manages to set focus, `hasItems` whether the menu
list is non-empty and `listStillFocused` whether `global.stage.get_key_focus()`
is still the list.  The `_grabFocus` retry calls `navigate_focus` once and
returns `false` (`GLib.SOURCE_REMOVE`) without rescheduling.  The
`_moveFocusToItems` retry re-enters `_moveFocusToItems`, which — when the list
has items, still owns stage focus and `navigate_focus` fails again — schedules
itself once more via `Meta.later_add`.  The result is the list of callbacks
the run leaves scheduled. -/
def runDeferredWork (focusSucceeds hasItems listStillFocused : Bool) :
    DeferredWork → List DeferredWork
  | .grabFocusRetry => []
  | .moveFocusRetry =>
    if hasItems && listStillFocused && !focusSucceeds then [.moveFocusRetry] else []

/-- One redraw: every pending before-redraw callback runs, each possibly
scheduling new callbacks for the next redraw. -/
def redrawStep (focusSucceeds hasItems listStillFocused : Bool)
    (queue : List DeferredWork) : List DeferredWork :=
  queue.flatMap (runDeferredWork focusSucceeds hasItems listStillFocused)

/-- `ICON_SIZE` (iconGrid.js 14). -/
def ICON_SIZE : Int := 160

/-- `MIN_ICON_SIZE` (iconGrid.js 15). -/
def MIN_ICON_SIZE : Int := 16

/-- The fields of `IconGrid` read or written by its layout pass
(`adaptToSize`, `_updateSpacingForSize`, `_computeLayout` and the size/spacing
getters).  `fixedSpacing`, `fixedHItemSize` and `fixedVItemSize` start out as
JS `undefined`; the getters test them for truthiness, so `0` models unset. -/
structure IconGridState where
  colLimit : Option Int
  minRows : Int
  minColumns : Int
  padWithSpacing : Bool
  topPadding : Int
  bottomPadding : Int
  rightPadding : Int
  leftPadding : Int
  spacing : Int
  hItemSize : Int
  vItemSize : Int
  fixedSpacing : Int
  fixedHItemSize : Int
  fixedVItemSize : Int
  nonIconWidth : Int
  nonIconHeight : Int
deriving DecidableEq

/-- `IconGrid._getSpacing` (iconGrid.js 983-985):
`this._fixedSpacing ? this._fixedSpacing : this._spacing`. -/
def getSpacing (s : IconGridState) : Int :=
  if s.fixedSpacing = 0 then s.spacing else s.fixedSpacing

/-- `IconGrid._getHItemSize` (iconGrid.js 992-994). -/
def getHItemSize (s : IconGridState) : Int :=
  if s.fixedHItemSize = 0 then s.hItemSize else s.fixedHItemSize

/-- `IconGrid._getVItemSize` (iconGrid.js 1001-1003). -/
def getVItemSize (s : IconGridState) : Int :=
  if s.fixedVItemSize = 0 then s.vItemSize else s.fixedVItemSize

/-- `IconGrid.setSpacing` (iconGrid.js 974-976). -/
def setSpacing (s : IconGridState) (v : Int) : IconGridState :=
  { s with fixedSpacing := v }

/-- The spacing value `IconGrid._updateSpacingForSize` (iconGrid.js 1011-1034)
computes: distribute the empty area around the minimum rows/columns as
spacing, capped by the item size, never below the CSS spacing. -/
def computeSpacingForSize (s : IconGridState) (availWidth availHeight : Int) : Int :=
  let maxEmptyVArea := availHeight - s.minRows * getVItemSize s
  let maxEmptyHArea := availWidth - s.minColumns * getHItemSize s
  let maxVSpacing :=
    if s.padWithSpacing then jsFloorDiv maxEmptyVArea (s.minRows + 1)
    else if s.minRows ≤ 1 then maxEmptyVArea
    else jsFloorDiv maxEmptyVArea (s.minRows - 1)
  let maxHSpacing :=
    if s.padWithSpacing then jsFloorDiv maxEmptyHArea (s.minColumns + 1)
    else if s.minColumns ≤ 1 then maxEmptyHArea
    else jsFloorDiv maxEmptyHArea (s.minColumns - 1)
  let maxSpacing := min maxHSpacing maxVSpacing
  let maxSpacing2 := min maxSpacing (min (getVItemSize s) (getHItemSize s))
  max s.spacing maxSpacing2

/-- `IconGrid._updateSpacingForSize` (iconGrid.js 1011-1037): store the
computed spacing via `setSpacing`, and in `padWithSpacing` mode set the four
paddings to that spacing as well. -/
def updateSpacingForSize (s : IconGridState) (availWidth availHeight : Int) : IconGridState :=
  let sp := computeSpacingForSize s availWidth availHeight
  let s2 := setSpacing s sp
  if s2.padWithSpacing then
    { s2 with topPadding := sp, rightPadding := sp, bottomPadding := sp, leftPadding := sp }
  else s2

/-- The `while` loop of `IconGrid._computeLayout` (iconGrid.js 837-840),
written with explicit fuel.  Every iteration of the source loop increases
`usedWidth` by at least `1` whenever the item size is positive (which the
theme guarantees: `get_length(...) || ICON_SIZE`), so the fuel chosen by
`computeLayout` below bounds the iteration count and the function computes
exactly what the loop computes. -/
def computeLayoutGo (colLimit : Option Int) (hItem spacing forWidth : Int) :
    Nat → Int → Int → Int × Int
  | 0, nColumns, usedWidth => (nColumns, usedWidth)
  | Nat.succ fuel, nColumns, usedWidth =>
    if (match colLimit with | none => true | some l => decide (nColumns < l))
        && decide (usedWidth + hItem ≤ forWidth) then
      computeLayoutGo colLimit hItem spacing forWidth fuel (nColumns + 1)
        (usedWidth + hItem + spacing)
    else (nColumns, usedWidth)

/-- `IconGrid._computeLayout` (iconGrid.js 830-845): count how many columns
fit `forWidth`, and the width they use (one trailing spacing removed when at
least one column fits). -/
def computeLayout (s : IconGridState) (forWidth : Int) : Int × Int :=
  let usedWidth0 := s.leftPadding + s.rightPadding
  let fuel := (forWidth - usedWidth0).toNat + 1
  let r := computeLayoutGo s.colLimit (getHItemSize s) (getSpacing s) forWidth fuel 0 usedWidth0
  if 0 < r.1 then (r.1, r.2 - getSpacing s) else r

/-- `IconGrid.columnsForWidth` (iconGrid.js 812-814). -/
def columnsForWidth (s : IconGridState) (rowWidth : Int) : Int :=
  (computeLayout s rowWidth).1

/-- `IconGrid.rowsForHeight` (iconGrid.js 877-882). -/
def rowsForHeight (s : IconGridState) (forHeight : Int) : Int :=
  jsFloorDiv (forHeight - (s.topPadding + s.bottomPadding) + getSpacing s)
    (getVItemSize s + getSpacing s)

/-- `IconGrid.usedWidthForNColumns` (iconGrid.js 909-913). -/
def usedWidthForNColumns (s : IconGridState) (columns : Int) : Int :=
  columns * (getHItemSize s + getSpacing s) - getSpacing s + s.leftPadding + s.rightPadding

/-- `IconGrid.usedHeightForNRows` (iconGrid.js 889-893). -/
def usedHeightForNRows (s : IconGridState) (nRows : Int) : Int :=
  (getVItemSize s + getSpacing s) * nRows - getSpacing s + s.topPadding + s.bottomPadding

/-- The first half of `IconGrid.adaptToSize` (iconGrid.js 1044-1051): reset
the fixed item sizes to the natural ones, recompute spacing, and record the
non-icon part of the cell.  `scaleFactor` is
`St.ThemeContext.get_for_stage(...).scale_factor`. -/
def adaptPhase1 (scaleFactor : Int) (s0 : IconGridState) (availWidth availHeight : Int) :
    IconGridState :=
  let s1 := { s0 with fixedHItemSize := s0.hItemSize, fixedVItemSize := s0.vItemSize }
  let s2 := updateSpacingForSize s1 availWidth availHeight
  { s2 with nonIconWidth := max 0 (s2.hItemSize - scaleFactor * ICON_SIZE),
            nonIconHeight := max 0 (s2.vItemSize - scaleFactor * ICON_SIZE) }

/-- The second half of `IconGrid.adaptToSize` (iconGrid.js 1053-1071): if the
column/row counts fall short of the minima, shrink the fixed item sizes
(never below the minimum icon size plus the non-icon part) and recompute the
spacing once more. -/
def adaptShrink (scaleFactor : Int) (s3 : IconGridState) (availWidth availHeight : Int) :
    IconGridState :=
  if columnsForWidth s3 availWidth < s3.minColumns
      ∨ rowsForHeight s3 availHeight < s3.minRows then
    let neededWidth := usedWidthForNColumns s3 s3.minColumns - availWidth
    let neededHeight := usedHeightForNRows s3 s3.minRows - availHeight
    let neededSpacePerItem :=
      if neededHeight < neededWidth then jsCeilDiv neededWidth s3.minColumns
      else jsCeilDiv neededHeight s3.minRows
    let s4 := { s3 with
      fixedHItemSize := max (s3.hItemSize - neededSpacePerItem)
        (s3.nonIconWidth + scaleFactor * MIN_ICON_SIZE),
      fixedVItemSize := max (s3.vItemSize - neededSpacePerItem)
        (s3.nonIconHeight + scaleFactor * MIN_ICON_SIZE) }
    updateSpacingForSize s4 availWidth availHeight
  else s3

/-- `IconGrid.adaptToSize` (iconGrid.js 1044-1075), the composition of the
two halves above.  The trailing `Meta.later_add` of the source updates the
icon textures of the items and touches no geometry field, so it does not
appear here. -/
def adaptToSize (scaleFactor : Int) (s0 : IconGridState) (availWidth availHeight : Int) :
    IconGridState :=
  adaptShrink scaleFactor (adaptPhase1 scaleFactor s0 availWidth availHeight)
    availWidth availHeight

/-- Whether an item's `icon` property is an instance of `BaseIcon`
(the `instanceof` check of `IconGrid.addItem`). -/
inductive IconKind
  | baseIcon
  | notBase
deriving DecidableEq

/-- An item handed to `IconGrid.addItem`: its `icon` property and its id. -/
structure GridItem where
  icon : IconKind
  appId : Nat
deriving DecidableEq

/-- The error thrown by `IconGrid.addItem` for a non-`BaseIcon` icon. -/
inductive AddItemError
  | notBaseIcon
deriving DecidableEq

/-- The item-bearing state of an `IconGrid`: the `_items` array and the
Clutter child list. -/
structure IconGridItems where
  items : List GridItem
  children : List GridItem
deriving DecidableEq

/-- `clutter_actor_insert_child_at_index`: inserts at `i`, appending when the
index is past the end (Clutter appends for out-of-range indices). -/
def insert_child_at_index (children : List GridItem) (item : GridItem) (i : Nat) :
    List GridItem :=
  if children.length < i then children ++ [item] else children.insertIdx i item

/-- `IconGrid.addItem` (iconGrid.js 936-943): throw unless `item.icon` is a
`BaseIcon`; otherwise push onto `_items` and either
`insert_child_at_index(item, index)` (when an index was passed) or
`add_actor(item)` (append). -/
def addItem (g : IconGridItems) (item : GridItem) (index : Option Nat) :
    Except AddItemError IconGridItems :=
  if ¬(item.icon = IconKind.baseIcon) then Except.error AddItemError.notBaseIcon
  else Except.ok
    { items := g.items ++ [item],
      children :=
        match index with
        | some i => insert_child_at_index g.children item i
        | none => g.children ++ [item] }

/-! ### Theorems about `IconGrid.navigate_focus` -/

/-- The computed `newIndex` always lands in `[0, n)` when the current index is
valid, the column count is at least one and there is at least one child. -/
theorem navNewIndex_mem (dir : Direction) (wrap : Bool) (cols n idx : Int)
    (hcols : 1 ≤ cols) (h0 : 0 ≤ idx) (h1 : idx < n) :
    0 ≤ navNewIndex idx dir cols n wrap ∧ navNewIndex idx dir cols n wrap < n := by
  have hbpos : (0 : Int) < cols := by omega
  have hc0 : 0 ≤ Int.tmod idx cols := Int.tmod_nonneg cols h0
  have hclt : Int.tmod idx cols < cols := Int.tmod_lt_of_pos idx hbpos
  have hcle : Int.tmod idx cols ≤ idx := by
    have h := Int.tmod_eq_emod h0 (le_of_lt hbpos)
    rw [h, Int.emod_def]
    have h1' : 0 ≤ idx / cols := Int.ediv_nonneg h0 (le_of_lt hbpos)
    have h2' : 0 ≤ cols * (idx / cols) := mul_nonneg (le_of_lt hbpos) h1'
    omega
  cases dir
  case up =>
    simp only [navNewIndex, jsFloorDiv]
    rw [Int.fdiv_eq_ediv _ (le_of_lt hbpos)]
    have hlr0 : 0 ≤ (n - 1) / cols := Int.ediv_nonneg (by omega) (by omega)
    have hlrm : (n - 1) / cols * cols ≤ n - 1 := Int.ediv_mul_le _ (by omega)
    have hk0 : 0 ≤ (n - 1) / cols * cols := mul_nonneg hlr0 (le_of_lt hbpos)
    have hd : (n - 1) / cols * cols = 0 ∨ cols ≤ (n - 1) / cols * cols := by
      rcases lt_or_ge ((n - 1) / cols) 1 with h | h
      · left
        have : (n - 1) / cols = 0 := by omega
        rw [this, zero_mul]
      · right
        exact le_mul_of_one_le_left (le_of_lt hbpos) h
    generalize Int.tmod idx cols = c at *
    generalize (n - 1) / cols * cols = k at *
    rcases hd with hd | hd <;> split_ifs <;> omega
  case down =>
    simp only [navNewIndex]
    split_ifs <;> omega
  case left =>
    simp only [navNewIndex]
    split_ifs <;> omega
  case right =>
    simp only [navNewIndex]
    split_ifs <;> omega

/-- Claim C1: for every direction, every column count `≥ 1`, and every current
index in `[0, count)`, `IconGrid.navigate_focus` resolves a target index in
`[0, count)` (so a fortiori it either reports no movement or resolves an
in-range target, and the Up/Down wrap recomputation never yields an index
`≥ count`, even for a ragged last row). -/
theorem navigateFocus_resolves_in_range (dir : Direction) (wrap : Bool) (cols n idx : Int)
    (hcols : 1 ≤ cols) (h0 : 0 ≤ idx) (h1 : idx < n) :
    ∃ j, navigate_focus n idx dir cols wrap = some j ∧ 0 ≤ j ∧ j < n := by
  obtain ⟨ha, hb⟩ := navNewIndex_mem dir wrap cols n idx hcols h0 h1
  refine ⟨navNewIndex idx dir cols n wrap, ?_, ha, hb⟩
  have hc : ¬ cols = 0 := by omega
  simp only [navigate_focus, if_neg (by omega : ¬ n ≤ 0), if_neg (by omega : ¬ idx < 0),
    if_neg hc]
  exact if_pos ⟨ha, hb⟩

/-- Witness for C1, instantiated at the spec's Scenario B: 5 items, 3 columns,
focus on index 4, press Up. -/
theorem navigateFocus_resolves_in_range_witness :
    ((1 : Int) ≤ 3 ∧ (0 : Int) ≤ 4 ∧ (4 : Int) < 5) ∧
    ∃ j, navigate_focus 5 4 Direction.up 3 true = some j ∧ 0 ≤ j ∧ j < 5 :=
  ⟨by decide, navigateFocus_resolves_in_range Direction.up true 3 5 4 (by decide)
    (by decide) (by decide)⟩

/-- A `RIGHT` movement with wrap resolves `i + 1`, wrapping to `0` past the
end. -/
theorem navigate_right_eq (c n i : Int) (h0 : 0 ≤ i) (h1 : i < n) :
    navigate_focus n i Direction.right c true = some (if n ≤ i + 1 then 0 else i + 1) := by
  simp only [navigate_focus, navNewIndex, if_neg (by omega : ¬ n ≤ 0),
    if_neg (by omega : ¬ i < 0)]
  split_ifs <;> first | rfl | (exfalso; omega)

/-- A `LEFT` movement with wrap resolves `i - 1`, wrapping to `n - 1` before
the start. -/
theorem navigate_left_eq (c n i : Int) (h0 : 0 ≤ i) (h1 : i < n) :
    navigate_focus n i Direction.left c true = some (if i - 1 < 0 then n - 1 else i - 1) := by
  simp only [navigate_focus, navNewIndex, if_neg (by omega : ¬ n ≤ 0),
    if_neg (by omega : ¬ i < 0)]
  split_ifs <;> first | rfl | (exfalso; omega)

/-- Claim C9: with wrap enabled, moving Right and then Left is the identity on
every valid index, for every column count. -/
theorem navigate_right_then_left_roundtrip (c n i : Int) (hn : 1 ≤ n) (h0 : 0 ≤ i)
    (h1 : i < n) :
    ((navigate_focus n i Direction.right c true).bind
      fun j => navigate_focus n j Direction.left c true) = some i := by
  rw [navigate_right_eq c n i h0 h1]
  by_cases hin : n ≤ i + 1
  · rw [if_pos hin, Option.some_bind, navigate_left_eq c n 0 (by omega) (by omega)]
    have : (0 : Int) - 1 < 0 := by omega
    rw [if_pos this]
    have : n - 1 = i := by omega
    rw [this]
  · rw [if_neg hin, Option.some_bind, navigate_left_eq c n (i + 1) (by omega) (by omega)]
    have : ¬ (i + 1 - 1 < 0) := by omega
    rw [if_neg this]
    have : i + 1 - 1 = i := by omega
    rw [this]

/-- Witness for C9 at `c = 3`, `n = 5`, `i = 4` (wraps through `0`). -/
theorem navigate_right_then_left_roundtrip_witness :
    ((1 : Int) ≤ 5 ∧ (0 : Int) ≤ 4 ∧ (4 : Int) < 5) ∧
    ((navigate_focus 5 4 Direction.right 3 true).bind
      fun j => navigate_focus 5 j Direction.left 3 true) = some 4 :=
  ⟨by decide, navigate_right_then_left_roundtrip 3 5 4 (by decide) (by decide) (by decide)⟩

/-- Counterexample to claim C4 as stated: with wrap disabled, a Left movement
at index 0 (3 items, 1 layout column) does not produce "no movement" — it
resolves index 0 again (the source clamps `newIndex` to `0` and re-grabs focus
on the same child, returning `true`) — and `AppView.movement` returns
`Clutter.EVENT_STOP`, consuming the event instead of propagating it. -/
theorem movement_no_wrap_counterexample :
    navigate_focus 3 0 Direction.left 1 false ≠ none ∧
    navigate_focus 3 0 Direction.left 1 false = some 0 ∧
    appViewMovement (some Direction.left) (some 0) 3 1 = (some 0, EventFlag.stop) ∧
    (appViewMovement (some Direction.left) (some 0) 3 1).2 ≠ EventFlag.propagate := by
  decide

/-- Claim C4 (amended): with wrap disabled, a Left movement at index 0 and a
Right movement at index `count - 1` clamp — focus is re-grabbed at the same
index, navigation reports success, and `AppView.movement` consumes the event
(`Clutter.EVENT_STOP`); the event does not propagate. -/
theorem movement_no_wrap_clamps (c n : Int) (hn : 1 ≤ n) :
    appViewMovement (some Direction.left) (some 0) n c = (some 0, EventFlag.stop) ∧
    appViewMovement (some Direction.right) (some (n - 1)) n c
      = (some (n - 1), EventFlag.stop) := by
  constructor
  · have hv : navNewIndex 0 Direction.left (if c = 0 then 1 else c) n false = 0 := by
      simp [navNewIndex]
    simp only [appViewMovement, navigate_focus, if_neg (by omega : ¬ n ≤ 0),
      if_neg (by omega : ¬ (0 : Int) < 0), hv]
    rw [if_pos ⟨le_refl 0, by omega⟩]
  · have hv : navNewIndex (n - 1) Direction.right (if c = 0 then 1 else c) n false = n - 1 := by
      simp only [navNewIndex]
      rw [if_pos (by omega : n ≤ n - 1 + 1)]
      simp
    simp only [appViewMovement, navigate_focus, if_neg (by omega : ¬ n ≤ 0),
      if_neg (by omega : ¬ n - 1 < 0), hv]
    rw [if_pos ⟨by omega, by omega⟩]

/-- Witness for the amended C4 at `n = 3`, `c = 2`. -/
theorem movement_no_wrap_clamps_witness :
    ((1 : Int) ≤ 3) ∧
    (appViewMovement (some Direction.left) (some 0) 3 2 = (some 0, EventFlag.stop) ∧
     appViewMovement (some Direction.right) (some 2) 3 2 = (some 2, EventFlag.stop)) :=
  ⟨by decide, by
    have h := movement_no_wrap_clamps 2 3 (by decide)
    simpa using h⟩

/-! ### Theorems about `AppView._redisplay` -/

/-- Erasing, one by one, exactly the elements of a duplicate-free list that
fail a predicate leaves the elements that satisfy it, in order.  This is the
net effect of the removal loop of `_redisplay`. -/
theorem foldl_erase_filter (q : Nat → Bool) (old : List Nat) (hold : old.Nodup) :
    (old.filter q).foldl (fun acc icon => acc.erase icon) old
      = old.filter fun x => !(q x) := by
  induction old with
  | nil => rfl
  | cons x t ih =>
    rcases List.nodup_cons.mp hold with ⟨hx, ht⟩
    by_cases hq : q x = true
    · have h1 : (x :: t).filter q = x :: t.filter q := by simp [List.filter_cons, hq]
      have h2 : (x :: t).filter (fun y => !(q y)) = t.filter (fun y => !(q y)) := by
        simp [List.filter_cons, hq]
      simp only [h1, h2, List.foldl_cons, List.erase_cons_head]
      exact ih ht
    · have h1 : (x :: t).filter q = t.filter q := by simp [List.filter_cons, hq]
      have h2 : (x :: t).filter (fun y => !(q y)) = x :: t.filter (fun y => !(q y)) := by
        simp [List.filter_cons, hq]
      rw [h1, h2]
      have step : ∀ (el : List Nat) (acc : List Nat), (∀ y ∈ el, y ≠ x) →
          el.foldl (fun acc icon => acc.erase icon) (x :: acc)
            = x :: el.foldl (fun acc icon => acc.erase icon) acc := by
        intro el
        induction el with
        | nil => intro acc _; rfl
        | cons y el' ih' =>
          intro acc hne
          have hyx : y ≠ x := hne y (List.mem_cons_self y el')
          simp only [List.foldl_cons]
          rw [List.erase_cons_tail (by simp [Ne.symm hyx])]
          exact ih' _ fun z hz => hne z (List.mem_cons_of_mem y hz)
      rw [step _ _ fun y hy => fun hyx => hx (hyx ▸ List.mem_of_mem_filter hy)]
      rw [ih ht]

/-- Inserting at the length of the prefix splits an append. -/
theorem insertIdx_append_length (pre l : List Nat) (x : Nat) :
    (pre ++ l).insertIdx pre.length x = pre ++ x :: l := by
  induction pre with
  | nil => rfl
  | cons p pre' ih => simp [List.insertIdx_succ_cons, ih]

/-- Splicing the elements of a duplicate-free target list that fail `P` into
the subsequence of those that satisfy `P`, each at its index in the target
(ascending, which is the order `_redisplay` walks `addedApps` in),
reconstructs the target exactly. -/
theorem foldl_spliceInsert_filter (P : Nat → Bool) (full : List Nat) (hnd : full.Nodup) :
    ∀ (t pre : List Nat), full = pre ++ t →
      (t.filter fun y => !(P y)).foldl
        (fun acc icon => spliceInsert acc (full.indexOf icon) icon) (pre ++ t.filter P)
      = full := by
  intro t
  induction t with
  | nil => intro pre hfull; simp [hfull]
  | cons x t' ih =>
    intro pre hfull
    by_cases hP : P x = true
    · have h1 : (x :: t').filter (fun y => !(P y)) = t'.filter (fun y => !(P y)) := by
        simp [List.filter_cons, hP]
      have h2 : (x :: t').filter P = x :: t'.filter P := by
        simp [List.filter_cons, hP]
      rw [h1, h2, show pre ++ x :: t'.filter P = (pre ++ [x]) ++ t'.filter P by simp]
      exact ih (pre ++ [x]) (by simp [hfull])
    · have h1 : (x :: t').filter (fun y => !(P y)) = x :: t'.filter (fun y => !(P y)) := by
        simp [List.filter_cons, hP]
      have h2 : (x :: t').filter P = t'.filter P := by
        simp [List.filter_cons, hP]
      have hxpre : x ∉ pre := by
        have hdisj := List.disjoint_of_nodup_append (hfull ▸ hnd)
        intro hmem
        exact hdisj hmem (List.mem_cons_self x t')
      have hidx : full.indexOf x = pre.length := by
        rw [hfull, List.indexOf_append_of_not_mem hxpre, List.indexOf_cons_self]
        exact Nat.add_zero _
      have hlen : ¬ ((pre ++ t'.filter P).length < pre.length) := by
        simp [List.length_append]
      have hsplice : spliceInsert (pre ++ t'.filter P) pre.length x
          = pre ++ x :: t'.filter P := by
        simp only [spliceInsert, if_neg hlen]
        exact insertIdx_append_length _ _ _
      rw [h1, h2, List.foldl_cons, hidx, hsplice,
        show pre ++ x :: t'.filter P = (pre ++ [x]) ++ t'.filter P by simp]
      exact ih (pre ++ [x]) (by simp [hfull])

/-- Counterexample to claim C2 as stated: `_redisplay` computes no additions
and no removals for a pure reorder, so applying them to the old list leaves
the old order — old `[1, 2]` against new `[2, 1]` yields `[1, 2]`, not the
id-order of the new list. -/
theorem redisplay_counterexample :
    redisplayOrdered [1, 2] [2, 1] = [1, 2] ∧
    redisplayOrdered [1, 2] [2, 1] ≠ [2, 1] ∧
    addedApps [1, 2] [2, 1] = [] ∧
    removedApps [1, 2] [2, 1] = [] := by decide

/-- Claim C2 (amended): for duplicate-free id lists whose shared ids appear in
the same relative order in old and new, applying `_redisplay`'s removals and
then its additions (each at its index in the new order, walked in ascending
order) to the old list yields exactly the id-order of the new list; and when
old and new are the same list, both the additions and the removals are
empty. -/
theorem redisplay_matches_new_order (oldList newList : List Nat)
    (hold : oldList.Nodup) (hnew : newList.Nodup)
    (horder : oldList.filter (fun x => newList.contains x)
      = newList.filter (fun x => oldList.contains x)) :
    redisplayOrdered oldList newList = newList ∧
    (oldList = newList →
      addedApps oldList newList = [] ∧ removedApps oldList newList = []) := by
  constructor
  · have hrem : (removedApps oldList newList).foldl (fun acc icon => acc.erase icon) oldList
        = newList.filter (fun x => oldList.contains x) := by
      rw [removedApps, foldl_erase_filter _ _ hold]
      rw [← horder]
      apply List.filter_congr
      intro x _
      simp
    show (addedApps oldList newList).foldl
      (fun acc icon => spliceInsert acc (newList.indexOf icon) icon)
      ((removedApps oldList newList).foldl (fun acc icon => acc.erase icon) oldList) = newList
    rw [hrem]
    have h := foldl_spliceInsert_filter (fun y => oldList.contains y) newList hnew newList [] rfl
    simpa [addedApps] using h
  · intro heq
    subst heq
    constructor
    · rw [addedApps, List.filter_eq_nil_iff]
      intro a ha
      simp [List.elem_iff, ha]
    · rw [removedApps, List.filter_eq_nil_iff]
      intro a ha
      simp [List.elem_iff, ha]

/-- Witness for the amended C2 at the spec's Scenario C shape: old
`[1, 2, 3]`, new `[2, 3, 4]` (removal `1`, addition `4` at index 2). -/
theorem redisplay_matches_new_order_witness :
    (([1, 2, 3] : List Nat).Nodup ∧ ([2, 3, 4] : List Nat).Nodup ∧
     ([1, 2, 3] : List Nat).filter (fun x => ([2, 3, 4] : List Nat).contains x)
       = ([2, 3, 4] : List Nat).filter (fun x => ([1, 2, 3] : List Nat).contains x)) ∧
    (redisplayOrdered [1, 2, 3] [2, 3, 4] = [2, 3, 4] ∧
     (([1, 2, 3] : List Nat) = [2, 3, 4] →
       addedApps [1, 2, 3] [2, 3, 4] = [] ∧ removedApps [1, 2, 3] [2, 3, 4] = [])) :=
  ⟨by decide,
    redisplay_matches_new_order [1, 2, 3] [2, 3, 4] (by decide) (by decide) (by decide)⟩

/-! ### Theorems about `AppView._loadApps` -/

/-- Claim C3: the derived grid ordering is favorites first (in favorite-list
order, via `find` lookups against the backend list), then running non-favorite
apps, then all remaining apps sorted by name; both trailing groups are in
alphabetical (name) order provided the backend list is name-sorted — which is
what `AppBackend.getAllApps` is documented to return — and the last group is a
permutation of exactly the non-favorite non-running apps. -/
theorem loadApps_ordering (backend : List AppIcon) (running favs : List Nat)
    (hsorted : backend.Pairwise fun a b => a.name ≤ b.name) :
    loadApps backend running favs =
      (favs.filterMap fun i => backend.find? fun icon => icon.id == i)
      ++ (backend.filter fun icon => running.contains icon.id && !(favs.contains icon.id))
      ++ ((backend.filter fun icon =>
            !(favs.contains icon.id) && !(running.contains icon.id)).mergeSort
            fun a b => decide (a.name ≤ b.name)) ∧
    (backend.filter fun icon =>
      running.contains icon.id && !(favs.contains icon.id)).Pairwise
        (fun a b => a.name ≤ b.name) ∧
    ((backend.filter fun icon =>
        !(favs.contains icon.id) && !(running.contains icon.id)).mergeSort
        fun a b => decide (a.name ≤ b.name)).Pairwise (fun a b => a.name ≤ b.name) ∧
    ((backend.filter fun icon =>
        !(favs.contains icon.id) && !(running.contains icon.id)).mergeSort
        fun a b => decide (a.name ≤ b.name)).Perm
      (backend.filter fun icon => !(favs.contains icon.id) && !(running.contains icon.id)) := by
  refine ⟨rfl, ?_, ?_, List.mergeSort_perm _ _⟩
  · exact List.Pairwise.sublist (List.filter_sublist _) hsorted
  · have h := @List.sorted_mergeSort AppIcon (fun a b => decide (a.name ≤ b.name))
      (fun a b c hab hbc => by
        simp only [decide_eq_true_eq] at *
        omega)
      (fun a b => by
        simp only [Bool.or_eq_true, decide_eq_true_eq]
        omega)
      (backend.filter fun icon => !(favs.contains icon.id) && !(running.contains icon.id))
    exact h.imp fun hab => by simpa using hab

/-- Witness for C3 at the spec's Scenario A: seven apps with ids/names `0..6`
(`a..g`), favorites `[0, 1, 2]`, running `[3]`, others `[4, 5, 6]`; the
resulting order is `[0, 1, 2, 3, 4, 5, 6]` (`[a, b, c, d, e, f, g]`). -/
theorem loadApps_ordering_witness :
    ([⟨0, 0⟩, ⟨1, 1⟩, ⟨2, 2⟩, ⟨3, 3⟩, ⟨4, 4⟩, ⟨5, 5⟩, ⟨6, 6⟩] : List AppIcon).Pairwise
      (fun a b => a.name ≤ b.name) ∧
    loadApps [⟨0, 0⟩, ⟨1, 1⟩, ⟨2, 2⟩, ⟨3, 3⟩, ⟨4, 4⟩, ⟨5, 5⟩, ⟨6, 6⟩] [3] [0, 1, 2]
      = [⟨0, 0⟩, ⟨1, 1⟩, ⟨2, 2⟩, ⟨3, 3⟩, ⟨4, 4⟩, ⟨5, 5⟩, ⟨6, 6⟩] ∧
    (loadApps [⟨0, 0⟩, ⟨1, 1⟩, ⟨2, 2⟩, ⟨3, 3⟩, ⟨4, 4⟩, ⟨5, 5⟩, ⟨6, 6⟩] [3] [0, 1, 2]).map
      AppIcon.id = [0, 1, 2, 3, 4, 5, 6] := by
  have hsorted : ([⟨0, 0⟩, ⟨1, 1⟩, ⟨2, 2⟩, ⟨3, 3⟩, ⟨4, 4⟩, ⟨5, 5⟩, ⟨6, 6⟩] : List AppIcon).Pairwise
      (fun a b => a.name ≤ b.name) := by decide
  have h := loadApps_ordering [⟨0, 0⟩, ⟨1, 1⟩, ⟨2, 2⟩, ⟨3, 3⟩, ⟨4, 4⟩, ⟨5, 5⟩, ⟨6, 6⟩]
    [3] [0, 1, 2] hsorted
  have hms : (([⟨0, 0⟩, ⟨1, 1⟩, ⟨2, 2⟩, ⟨3, 3⟩, ⟨4, 4⟩, ⟨5, 5⟩, ⟨6, 6⟩] : List AppIcon).filter
      fun icon => !(([0, 1, 2] : List Nat).contains icon.id)
        && !(([3] : List Nat).contains icon.id)).mergeSort
        (fun a b => decide (a.name ≤ b.name)) = [⟨4, 4⟩, ⟨5, 5⟩, ⟨6, 6⟩] := by
    have hf : (([⟨0, 0⟩, ⟨1, 1⟩, ⟨2, 2⟩, ⟨3, 3⟩, ⟨4, 4⟩, ⟨5, 5⟩, ⟨6, 6⟩] : List AppIcon).filter
        fun icon => !(([0, 1, 2] : List Nat).contains icon.id)
          && !(([3] : List Nat).contains icon.id)) = [⟨4, 4⟩, ⟨5, 5⟩, ⟨6, 6⟩] := by decide
    rw [hf]
    exact List.mergeSort_of_sorted (by decide)
  have heq : loadApps [⟨0, 0⟩, ⟨1, 1⟩, ⟨2, 2⟩, ⟨3, 3⟩, ⟨4, 4⟩, ⟨5, 5⟩, ⟨6, 6⟩] [3] [0, 1, 2]
      = [⟨0, 0⟩, ⟨1, 1⟩, ⟨2, 2⟩, ⟨3, 3⟩, ⟨4, 4⟩, ⟨5, 5⟩, ⟨6, 6⟩] := by
    rw [h.1, hms]
    decide
  exact ⟨hsorted, heq, by rw [heq]; decide⟩

/-! ### Theorems about `MouselessScreen` show/hide and deferred work -/

/-- Claim C5 (the code lacks the claimed cancellation): when `_grabFocus`
fails its immediate focus attempt it schedules a before-redraw retry, and
`hideModal` — user-initiated or not — leaves that retry scheduled: the class
never calls `Meta.later_remove`, so the pending count is unchanged by the hide
and the retry still fires at the next redraw, acting on the dismissed view. -/
theorem hideModal_leaves_retry_pending (s : MouselessScreen') (userHidden : Bool) :
    (hideModal userHidden (grabFocus false s)).pendingFocusRetries
      = s.pendingFocusRetries + 1 ∧
    0 < (hideModal userHidden (grabFocus false s)).pendingFocusRetries ∧
    (∀ u s', (hideModal u s').pendingFocusRetries = s'.pendingFocusRetries) := by
  refine ⟨rfl, by simp [hideModal, grabFocus], fun u s' => rfl⟩

/-- Claim C6: a nonzero running count auto-hides (visibility cleared,
`_isShown` untouched); a later zero count auto-shows again; but not after a
user-initiated hide in between, which clears `_isShown` so the zero-count
signal leaves the interface hidden. -/
theorem updateRunningCount_autohide_autoshow (s : MouselessScreen') (c : Nat)
    (hshown : s.isShown = true) (hc : c ≠ 0) :
    (updateRunningCount false c s).actorVisible = false ∧
    (updateRunningCount false c s).isShown = true ∧
    (updateRunningCount false 0 (updateRunningCount false c s)).actorVisible = true ∧
    (updateRunningCount false 0
      (hideModal true (updateRunningCount false c s))).actorVisible = false := by
  simp [updateRunningCount, hideModal, showModal, hc, hshown]

/-- Witness for C6 with one running app appearing from a shown interface. -/
theorem updateRunningCount_autohide_autoshow_witness :
    ((⟨true, true, true, 0, ViewName.apps, 0⟩ : MouselessScreen').isShown = true
      ∧ (1 : Nat) ≠ 0) ∧
    ((updateRunningCount false 1 ⟨true, true, true, 0, ViewName.apps, 0⟩).actorVisible = false ∧
     (updateRunningCount false 1 ⟨true, true, true, 0, ViewName.apps, 0⟩).isShown = true ∧
     (updateRunningCount false 0 (updateRunningCount false 1
       ⟨true, true, true, 0, ViewName.apps, 0⟩)).actorVisible = true ∧
     (updateRunningCount false 0 (hideModal true (updateRunningCount false 1
       ⟨true, true, true, 0, ViewName.apps, 0⟩))).actorVisible = false) :=
  ⟨by decide, updateRunningCount_autohide_autoshow ⟨true, true, true, 0, ViewName.apps, 0⟩ 1
    rfl (by decide)⟩

/-- Claim C7 (the code is not capped): in a world where the focus target can
never be focused while the menu list keeps items and stage focus, the
`MenuList._moveFocusToItems` before-redraw retry reschedules itself on every
redraw, forever — after any number of redraws it is still pending — whereas
the `MouselessScreen._grabFocus` retry runs once and schedules nothing. -/
theorem moveFocusRetry_reschedules_forever :
    (∀ n : Nat, (redrawStep false true true)^[n] [DeferredWork.moveFocusRetry]
      = [DeferredWork.moveFocusRetry]) ∧
    redrawStep false true true [DeferredWork.grabFocusRetry] = [] ∧
    (redrawStep false true true)^[1000] [DeferredWork.moveFocusRetry] ≠ [] := by
  have hstep : ∀ n : Nat, (redrawStep false true true)^[n] [DeferredWork.moveFocusRetry]
      = [DeferredWork.moveFocusRetry] := by
    intro n
    induction n with
    | zero => rfl
    | succ k ih => rw [Function.iterate_succ_apply', ih]; rfl
  refine ⟨hstep, rfl, ?_⟩
  rw [hstep 1000]
  simp

/-! ### Theorems about `IconGrid.addItem` -/

/-- Inserting at a valid index splits the list there (`List.insertIdx` as
take/insert/drop). -/
theorem insertIdx_eq_take_cons_drop {α : Type} (x : α) :
    ∀ (i : Nat) (l : List α), i ≤ l.length →
      l.insertIdx i x = l.take i ++ x :: l.drop i := by
  intro i
  induction i with
  | zero => intro l _; simp
  | succ k ih =>
    intro l hle
    cases l with
    | nil => simp at hle
    | cons c rest =>
      simp only [List.insertIdx_succ_cons, List.take_succ_cons, List.drop_succ_cons,
        List.cons_append]
      exact congrArg (c :: ·) (ih rest (by simpa using hle))

/-- Claim C10: `addItem` errors out exactly on items whose `icon` is not a
`BaseIcon`, leaving the grid untouched (the throw happens before any
mutation); for `BaseIcon` items it appends to `_items` and inserts the child
at the given index when one is supplied (splitting the child list there) and
appends otherwise. -/
theorem addItem_spec (g : IconGridItems) (item : GridItem) (index : Option Nat) :
    (item.icon ≠ IconKind.baseIcon → addItem g item index = Except.error AddItemError.notBaseIcon) ∧
    (item.icon = IconKind.baseIcon → ∃ g', addItem g item index = Except.ok g' ∧
      g'.items = g.items ++ [item] ∧
      (index = none → g'.children = g.children ++ [item]) ∧
      (∀ i : Nat, index = some i → i ≤ g.children.length →
        g'.children = g.children.take i ++ item :: g.children.drop i)) := by
  constructor
  · intro hni
    simp only [addItem]
    rw [if_pos hni]
  · intro hbi
    have hni : ¬¬(item.icon = IconKind.baseIcon) := by simp [hbi]
    refine ⟨{ items := g.items ++ [item],
              children := match index with
                | some i => insert_child_at_index g.children item i
                | none => g.children ++ [item] }, ?_, rfl, ?_, ?_⟩
    · simp only [addItem]
      rw [if_neg hni]
    · intro hnone
      subst hnone
      rfl
    · intro i hsome hle
      subst hsome
      show insert_child_at_index g.children item i = _
      unfold insert_child_at_index
      rw [if_neg (by omega)]
      exact insertIdx_eq_take_cons_drop item i g.children hle

/-- Witness for C10: a non-`BaseIcon` item is rejected; a `BaseIcon` item is
inserted at index 1 of a two-child grid. -/
theorem addItem_spec_witness :
    ((⟨IconKind.notBase, 9⟩ : GridItem).icon ≠ IconKind.baseIcon ∧
      addItem ⟨[], []⟩ ⟨IconKind.notBase, 9⟩ none = Except.error AddItemError.notBaseIcon) ∧
    ((⟨IconKind.baseIcon, 9⟩ : GridItem).icon = IconKind.baseIcon ∧
      ∃ g', addItem ⟨[⟨IconKind.baseIcon, 1⟩, ⟨IconKind.baseIcon, 2⟩],
              [⟨IconKind.baseIcon, 1⟩, ⟨IconKind.baseIcon, 2⟩]⟩
            ⟨IconKind.baseIcon, 9⟩ (some 1) = Except.ok g' ∧
        g'.items = [⟨IconKind.baseIcon, 1⟩, ⟨IconKind.baseIcon, 2⟩] ++ [⟨IconKind.baseIcon, 9⟩] ∧
        g'.children = [⟨IconKind.baseIcon, 1⟩, ⟨IconKind.baseIcon, 9⟩, ⟨IconKind.baseIcon, 2⟩]) := by
  constructor
  · exact ⟨by decide, (addItem_spec ⟨[], []⟩ ⟨IconKind.notBase, 9⟩ none).1 (by decide)⟩
  · refine ⟨rfl, ?_⟩
    obtain ⟨g', hok, hitems, -, hins⟩ :=
      (addItem_spec ⟨[⟨IconKind.baseIcon, 1⟩, ⟨IconKind.baseIcon, 2⟩],
          [⟨IconKind.baseIcon, 1⟩, ⟨IconKind.baseIcon, 2⟩]⟩
        ⟨IconKind.baseIcon, 9⟩ (some 1)).2 rfl
    refine ⟨g', hok, hitems, ?_⟩
    rw [hins 1 rfl (by decide)]
    rfl

/-! ### Theorems about `IconGrid.adaptToSize` -/

/-- Normal form of `_updateSpacingForSize`: it stores the computed spacing in
`_fixedSpacing` and, in `padWithSpacing` mode, in the four paddings; nothing
else changes. -/
theorem updateSpacing_eq (s : IconGridState) (w h : Int) :
    updateSpacingForSize s w h =
      if s.padWithSpacing then
        { s with fixedSpacing := computeSpacingForSize s w h,
                 topPadding := computeSpacingForSize s w h,
                 rightPadding := computeSpacingForSize s w h,
                 bottomPadding := computeSpacingForSize s w h,
                 leftPadding := computeSpacingForSize s w h }
      else { s with fixedSpacing := computeSpacingForSize s w h } := rfl

/-- The computed spacing depends only on the fields `_updateSpacingForSize`
reads: the row/column minima, the pad mode, the CSS spacing and the two item
sizes. -/
theorem computeSpacing_congr (s t : IconGridState) (w h : Int)
    (hmr : s.minRows = t.minRows) (hmc : s.minColumns = t.minColumns)
    (hpad : s.padWithSpacing = t.padWithSpacing) (hsp : s.spacing = t.spacing)
    (hgv : getVItemSize s = getVItemSize t) (hgh : getHItemSize s = getHItemSize t) :
    computeSpacingForSize s w h = computeSpacingForSize t w h := by
  unfold computeSpacingForSize
  rw [hmr, hmc, hpad, hsp, hgv, hgh]

/-- The first half of `adaptToSize` depends only on the fields it does not
itself overwrite first: the column limit, the minima, the pad mode, the CSS
spacing, the natural item sizes, and — only when `padWithSpacing` is off —
the four paddings. -/
theorem adaptPhase1_congr (scale w h : Int) (s t : IconGridState)
    (h1 : s.colLimit = t.colLimit) (h2 : s.minRows = t.minRows)
    (h3 : s.minColumns = t.minColumns) (h4 : s.padWithSpacing = t.padWithSpacing)
    (h5 : s.spacing = t.spacing) (h6 : s.hItemSize = t.hItemSize)
    (h7 : s.vItemSize = t.vItemSize)
    (hp : s.padWithSpacing = false →
      s.topPadding = t.topPadding ∧ s.bottomPadding = t.bottomPadding ∧
      s.rightPadding = t.rightPadding ∧ s.leftPadding = t.leftPadding) :
    adaptPhase1 scale s w h = adaptPhase1 scale t w h := by
  obtain ⟨cl, mr, mc, pad, tp, bp, rp, lp, sp, hi, vi, fs, fh, fv, nw, nh⟩ := s
  obtain ⟨cl', mr', mc', pad', tp', bp', rp', lp', sp', hi', vi', fs', fh', fv', nw', nh'⟩ := t
  simp only at h1 h2 h3 h4 h5 h6 h7 hp
  subst h1 h2 h3 h4 h5 h6 h7
  cases pad
  · obtain ⟨e1, e2, e3, e4⟩ := hp rfl
    subst e1 e2 e3 e4
    have hcs : computeSpacingForSize
        ⟨cl, mr, mc, false, tp, bp, rp, lp, sp, hi, vi, fs, hi, vi, nw, nh⟩ w h
        = computeSpacingForSize
        ⟨cl, mr, mc, false, tp, bp, rp, lp, sp, hi, vi, fs', hi, vi, nw', nh'⟩ w h :=
      computeSpacing_congr _ _ w h rfl rfl rfl rfl rfl rfl
    have lhs_eq : adaptPhase1 scale
        ⟨cl, mr, mc, false, tp, bp, rp, lp, sp, hi, vi, fs, fh, fv, nw, nh⟩ w h
        = ⟨cl, mr, mc, false, tp, bp, rp, lp, sp, hi, vi,
            computeSpacingForSize
              ⟨cl, mr, mc, false, tp, bp, rp, lp, sp, hi, vi, fs, hi, vi, nw, nh⟩ w h,
            hi, vi, max 0 (hi - scale * ICON_SIZE), max 0 (vi - scale * ICON_SIZE)⟩ := rfl
    have rhs_eq : adaptPhase1 scale
        ⟨cl, mr, mc, false, tp, bp, rp, lp, sp, hi, vi, fs', fh', fv', nw', nh'⟩ w h
        = ⟨cl, mr, mc, false, tp, bp, rp, lp, sp, hi, vi,
            computeSpacingForSize
              ⟨cl, mr, mc, false, tp, bp, rp, lp, sp, hi, vi, fs', hi, vi, nw', nh'⟩ w h,
            hi, vi, max 0 (hi - scale * ICON_SIZE), max 0 (vi - scale * ICON_SIZE)⟩ := rfl
    rw [lhs_eq, rhs_eq, hcs]
  · have hcs : computeSpacingForSize
        ⟨cl, mr, mc, true, tp, bp, rp, lp, sp, hi, vi, fs, hi, vi, nw, nh⟩ w h
        = computeSpacingForSize
        ⟨cl, mr, mc, true, tp', bp', rp', lp', sp, hi, vi, fs', hi, vi, nw', nh'⟩ w h :=
      computeSpacing_congr _ _ w h rfl rfl rfl rfl rfl rfl
    have lhs_eq : adaptPhase1 scale
        ⟨cl, mr, mc, true, tp, bp, rp, lp, sp, hi, vi, fs, fh, fv, nw, nh⟩ w h
        = ⟨cl, mr, mc, true,
            computeSpacingForSize
              ⟨cl, mr, mc, true, tp, bp, rp, lp, sp, hi, vi, fs, hi, vi, nw, nh⟩ w h,
            computeSpacingForSize
              ⟨cl, mr, mc, true, tp, bp, rp, lp, sp, hi, vi, fs, hi, vi, nw, nh⟩ w h,
            computeSpacingForSize
              ⟨cl, mr, mc, true, tp, bp, rp, lp, sp, hi, vi, fs, hi, vi, nw, nh⟩ w h,
            computeSpacingForSize
              ⟨cl, mr, mc, true, tp, bp, rp, lp, sp, hi, vi, fs, hi, vi, nw, nh⟩ w h,
            sp, hi, vi,
            computeSpacingForSize
              ⟨cl, mr, mc, true, tp, bp, rp, lp, sp, hi, vi, fs, hi, vi, nw, nh⟩ w h,
            hi, vi, max 0 (hi - scale * ICON_SIZE), max 0 (vi - scale * ICON_SIZE)⟩ := rfl
    have rhs_eq : adaptPhase1 scale
        ⟨cl, mr, mc, true, tp', bp', rp', lp', sp, hi, vi, fs', fh', fv', nw', nh'⟩ w h
        = ⟨cl, mr, mc, true,
            computeSpacingForSize
              ⟨cl, mr, mc, true, tp', bp', rp', lp', sp, hi, vi, fs', hi, vi, nw', nh'⟩ w h,
            computeSpacingForSize
              ⟨cl, mr, mc, true, tp', bp', rp', lp', sp, hi, vi, fs', hi, vi, nw', nh'⟩ w h,
            computeSpacingForSize
              ⟨cl, mr, mc, true, tp', bp', rp', lp', sp, hi, vi, fs', hi, vi, nw', nh'⟩ w h,
            computeSpacingForSize
              ⟨cl, mr, mc, true, tp', bp', rp', lp', sp, hi, vi, fs', hi, vi, nw', nh'⟩ w h,
            sp, hi, vi,
            computeSpacingForSize
              ⟨cl, mr, mc, true, tp', bp', rp', lp', sp, hi, vi, fs', hi, vi, nw', nh'⟩ w h,
            hi, vi, max 0 (hi - scale * ICON_SIZE), max 0 (vi - scale * ICON_SIZE)⟩ := rfl
    rw [lhs_eq, rhs_eq, hcs]

/-- The first half of `adaptToSize` preserves the fields it only reads
(and the paddings, when `padWithSpacing` is off). -/
theorem adaptPhase1_persist (scale w h : Int) (s : IconGridState) :
    (adaptPhase1 scale s w h).colLimit = s.colLimit ∧
    (adaptPhase1 scale s w h).minRows = s.minRows ∧
    (adaptPhase1 scale s w h).minColumns = s.minColumns ∧
    (adaptPhase1 scale s w h).padWithSpacing = s.padWithSpacing ∧
    (adaptPhase1 scale s w h).spacing = s.spacing ∧
    (adaptPhase1 scale s w h).hItemSize = s.hItemSize ∧
    (adaptPhase1 scale s w h).vItemSize = s.vItemSize ∧
    (s.padWithSpacing = false →
      (adaptPhase1 scale s w h).topPadding = s.topPadding ∧
      (adaptPhase1 scale s w h).bottomPadding = s.bottomPadding ∧
      (adaptPhase1 scale s w h).rightPadding = s.rightPadding ∧
      (adaptPhase1 scale s w h).leftPadding = s.leftPadding) := by
  obtain ⟨cl, mr, mc, pad, tp, bp, rp, lp, sp, hi, vi, fs, fh, fv, nw, nh⟩ := s
  cases pad
  · exact ⟨rfl, rfl, rfl, rfl, rfl, rfl, rfl, fun _ => ⟨rfl, rfl, rfl, rfl⟩⟩
  · exact ⟨rfl, rfl, rfl, rfl, rfl, rfl, rfl, fun hc => Bool.noConfusion hc⟩

/-- The shrink half of `adaptToSize` preserves the same read-only fields. -/
theorem adaptShrink_persist (scale w h : Int) (t : IconGridState) :
    (adaptShrink scale t w h).colLimit = t.colLimit ∧
    (adaptShrink scale t w h).minRows = t.minRows ∧
    (adaptShrink scale t w h).minColumns = t.minColumns ∧
    (adaptShrink scale t w h).padWithSpacing = t.padWithSpacing ∧
    (adaptShrink scale t w h).spacing = t.spacing ∧
    (adaptShrink scale t w h).hItemSize = t.hItemSize ∧
    (adaptShrink scale t w h).vItemSize = t.vItemSize ∧
    (t.padWithSpacing = false →
      (adaptShrink scale t w h).topPadding = t.topPadding ∧
      (adaptShrink scale t w h).bottomPadding = t.bottomPadding ∧
      (adaptShrink scale t w h).rightPadding = t.rightPadding ∧
      (adaptShrink scale t w h).leftPadding = t.leftPadding) := by
  unfold adaptShrink
  split
  · dsimp only
    rw [updateSpacing_eq]
    dsimp only
    split
    · next hptrue =>
      exact ⟨rfl, rfl, rfl, rfl, rfl, rfl, rfl,
        fun hf => by rw [hf] at hptrue; exact Bool.noConfusion hptrue⟩
    · exact ⟨rfl, rfl, rfl, rfl, rfl, rfl, rfl, fun _ => ⟨rfl, rfl, rfl, rfl⟩⟩
  · exact ⟨rfl, rfl, rfl, rfl, rfl, rfl, rfl, fun _ => ⟨rfl, rfl, rfl, rfl⟩⟩

/-- Claim C8: the shrink-then-pad layout pass is idempotent — for every
available width and height (and scale factor), running `adaptToSize` twice
with the same inputs leaves exactly the state a single run produces: the same
cell sizes, spacing, paddings, and hence the same column count. -/
theorem adaptToSize_idempotent (scale : Int) (s : IconGridState) (w h : Int) :
    adaptToSize scale (adaptToSize scale s w h) w h = adaptToSize scale s w h := by
  obtain ⟨hs1, hs2, hs3, hs4, hs5, hs6, hs7, hsp⟩ :=
    adaptShrink_persist scale w h (adaptPhase1 scale s w h)
  obtain ⟨hp1, hp2, hp3, hp4, hp5, hp6, hp7, hpp⟩ := adaptPhase1_persist scale w h s
  have hph : adaptPhase1 scale (adaptToSize scale s w h) w h = adaptPhase1 scale s w h := by
    apply adaptPhase1_congr
    · exact hs1.trans hp1
    · exact hs2.trans hp2
    · exact hs3.trans hp3
    · exact hs4.trans hp4
    · exact hs5.trans hp5
    · exact hs6.trans hp6
    · exact hs7.trans hp7
    · intro hf
      have hf' : (adaptShrink scale (adaptPhase1 scale s w h) w h).padWithSpacing = false := hf
      have hfmid : (adaptPhase1 scale s w h).padWithSpacing = false := hs4.symm.trans hf'
      have hforig : s.padWithSpacing = false := hp4.symm.trans hfmid
      obtain ⟨q1, q2, q3, q4⟩ := hsp hfmid
      obtain ⟨r1, r2, r3, r4⟩ := hpp hforig
      exact ⟨q1.trans r1, q2.trans r2, q3.trans r3, q4.trans r4⟩
  show adaptShrink scale (adaptPhase1 scale (adaptToSize scale s w h) w h) w h
    = adaptToSize scale s w h
  rw [hph]
  rfl
